import Mathlib

/-!
Verification development for the nvFuser scheduling and lowering core.

The definitions below are shallow embeddings of the C++ sources:
  - csrc/utils.h               (KernelIndexTypeCompute)
  - csrc/scheduler/registry.cpp (SchedulerRuntimeInfo alignment, checkCanSchedule,
                                 SchedulerEntry::canSchedule / proposeHeuristics)
  - the pointwise scheduler    (DomainMap::findReferenceTensorView,
                                getPointwiseHeuristics break-point selection)
  - device-lower utilities     (getAllocInformation)
  - the non-divisible-split analysis (modelled from the specification; its
    implementation is not among the provided sources, only its tests are).

Machine integers are modelled as Int or Nat; all the modelled code paths keep
the relevant quantities far from the 64-bit overflow boundary, and the 32-bit
boundary of index-type selection is modelled explicitly.
-/

namespace Fuser

/-! ## Kernel index type computation (csrc/utils.h, KernelIndexTypeCompute) -/

/-- Data types of index computation; only the two index types are needed.
Int is the 64-bit index type, Int32 the 32-bit one (as in the source). -/
inductive PrimDataType where
  | Int
  | Int32
deriving DecidableEq

/-- Source: static constexpr int64_t most_positive_int32_index =
std::numeric_limits of int ::max() / 2.  That is (2^31 - 1) / 2 with C++
integer division, i.e. 1073741823: the source saves one more bit besides
the sign bit to be conservative. -/
def most_positive_int32_index : Int := (2 ^ 31 - 1) / 2

/-- State of KernelIndexTypeCompute: the accumulated most-positive index. -/
structure KernelIndexTypeCompute where
  tensor_most_positive_index : Int
deriving DecidableEq

/-- Source: getType returns Int when the accumulated index exceeds
most_positive_int32_index, Int32 otherwise. -/
def KernelIndexTypeCompute.getType (c : KernelIndexTypeCompute) : PrimDataType :=
  if c.tensor_most_positive_index > most_positive_int32_index then
    PrimDataType.Int
  else
    PrimDataType.Int32

/-- Source: addDim(size, stride) accumulates (size - 1) * stride when size > 1
and stride > 0, errors on a negative stride when size > 1 (NVF_ERROR, modelled
as none), and returns the current required type. -/
def KernelIndexTypeCompute.addDim (c : KernelIndexTypeCompute) (size stride : Int) :
    Option (KernelIndexTypeCompute × PrimDataType) :=
  if 1 < size then
    if stride < 0 then
      none
    else
      let c' : KernelIndexTypeCompute :=
        if 0 < stride then
          ⟨c.tensor_most_positive_index + (size - 1) * stride⟩
        else
          c
      some (c', c'.getType)
  else
    some (c, c.getType)

/-! ## Scheduler registry dispatch (csrc/scheduler/registry.cpp) -/

/-- The scheduler kinds of the registry. -/
inductive ScheduleHeuristic where
  | NoOp
  | PointWise
  | Reduction
  | InnerPersistent
  | OuterPersistent
  | InnerOuterPersistent
  | Transpose
  | Matmul
  | ExprEval
deriving DecidableEq

/-- The properties of a fusion read by the registry's early rejection checks:
presence of SdpaFwdOp/SdpaBwdOp, presence of MatmulOp/LinearOp/MmaOp,
connectivity of the fusion graph, and self mapping in the iter domain graph. -/
structure FusionProps where
  hasSdpaOps : Bool
  hasMatmulOps : Bool
  isConnectedFusionGraph : Bool
  hasSelfMapping : Bool

/-- The scheduler-specific gates, kept abstract: canScheduleCompileTime and
canScheduleRunTime of each scheduler type (their bodies live in the individual
scheduler translation units). -/
structure SchedulerGates where
  canScheduleCompileTime : ScheduleHeuristic → Bool
  canScheduleRunTime : ScheduleHeuristic → Bool

/-- Source: checkCanSchedule of SchedulerType (registry.cpp).  With no data
cache it first rejects fusions with SDPA ops, then fusions with matmul ops
when the scheduler is not the Matmul scheduler, then disconnected graphs,
then self-mapped iter domain graphs, then consults the scheduler's
compile-time gate; finally (and in the cached case, immediately) it consults
the scheduler's run-time gate.  Never instantiated at ExprEval (NVF_ERROR in
the source; the dispatcher routes ExprEval elsewhere). -/
def checkCanSchedule (gates : SchedulerGates) (fusion : FusionProps)
    (sh : ScheduleHeuristic) (data_cache_given : Bool) : Bool :=
  if !data_cache_given then
    if fusion.hasSdpaOps then
      false
    else if sh ≠ ScheduleHeuristic.Matmul && fusion.hasMatmulOps then
      false
    else if !fusion.isConnectedFusionGraph then
      false
    else if fusion.hasSelfMapping then
      false
    else if !gates.canScheduleCompileTime sh then
      false
    else
      gates.canScheduleRunTime sh
  else
    gates.canScheduleRunTime sh

/-- Modelled from the spec: the compile-time gate of the ExprEval scheduler.
ExprEvalScheduler::canScheduleCompileTime is not among the provided sources.
Per the spec's hard-rejection list, matmul ops are rejected by every scheduler
other than the matmul scheduler, so the gate rejects fusions with matmul ops;
its remaining scheduler-specific checks are the abstract gate. -/
def exprEvalCanScheduleCompileTime (gates : SchedulerGates) (fusion : FusionProps) : Bool :=
  !fusion.hasMatmulOps && gates.canScheduleCompileTime ScheduleHeuristic.ExprEval

/-- Source: SchedulerEntry::canSchedule dispatches every scheduler kind through
checkCanSchedule, except ExprEval, which only needs its compile-time check
(its run-time check is always true per the source comment). -/
def SchedulerEntry.canSchedule (gates : SchedulerGates) (fusion : FusionProps)
    (sh : ScheduleHeuristic) (data_cache_given : Bool) : Bool :=
  match sh with
  | ScheduleHeuristic.ExprEval => exprEvalCanScheduleCompileTime gates fusion
  | _ => checkCanSchedule gates fusion sh data_cache_given

/-- Modelled from the spec: all_heuristics_in_priority_order is declared in
scheduler/registry.h, which is not among the provided sources.  The spec fixes
the priority order ExprEval, NoOp, Matmul, Transpose, InnerPersistent,
OuterPersistent, InnerOuterPersistent, Reduction, PointWise. -/
def all_heuristics_in_priority_order : List ScheduleHeuristic :=
  [ScheduleHeuristic.ExprEval,
   ScheduleHeuristic.NoOp,
   ScheduleHeuristic.Matmul,
   ScheduleHeuristic.Transpose,
   ScheduleHeuristic.InnerPersistent,
   ScheduleHeuristic.OuterPersistent,
   ScheduleHeuristic.InnerOuterPersistent,
   ScheduleHeuristic.Reduction,
   ScheduleHeuristic.PointWise]

/-- Source: SchedulerEntry::proposeHeuristics loops through the priority list
and returns the first scheduler kind accepted by canSchedule (called without a
data cache), or nullopt when none is. -/
def SchedulerEntry.proposeHeuristics (gates : SchedulerGates) (fusion : FusionProps) :
    Option ScheduleHeuristic :=
  all_heuristics_in_priority_order.find?
    (fun sh => SchedulerEntry.canSchedule gates fusion sh false)

/-- The compile-time portion of the canSchedule check of a scheduler kind: the
data-cache-free block of checkCanSchedule (early structural rejections plus the
scheduler's compile-time gate); for ExprEval its compile-time gate. -/
def compileTimeGate (gates : SchedulerGates) (fusion : FusionProps)
    (sh : ScheduleHeuristic) : Bool :=
  match sh with
  | ScheduleHeuristic.ExprEval => exprEvalCanScheduleCompileTime gates fusion
  | _ =>
    !fusion.hasSdpaOps &&
    !(sh ≠ ScheduleHeuristic.Matmul && fusion.hasMatmulOps) &&
    fusion.isConnectedFusionGraph &&
    !fusion.hasSelfMapping &&
    gates.canScheduleCompileTime sh

/-- The run-time portion of the canSchedule check: the scheduler's run-time
gate; always true for ExprEval (source comment: canScheduleRunTime is always
true for the ExprEval scheduler). -/
def runTimeGate (gates : SchedulerGates) (sh : ScheduleHeuristic) : Bool :=
  match sh with
  | ScheduleHeuristic.ExprEval => true
  | _ => gates.canScheduleRunTime sh

/-! ## SchedulerRuntimeInfo alignment (csrc/scheduler/registry.cpp) -/

/-- Modelled from the spec: the constant max_alignment_size_in_byte is
declared in scheduler/registry.h, which is not among the provided sources.
The spec's resource model aligns allocations to 16 bytes and the maximum
vector access is 16 bytes wide, so the maximum alignment size is 16. -/
def max_alignment_size_in_byte : Nat := 16

/-- The while loop of computeAlignmentSize, with enough fuel for the bounded
loop (next_alignment_size doubles from 2 and the loop stops once it exceeds
16, so 5 iterations always suffice). -/
def computeAlignmentSizeGo (ptr_address : Nat) :
    Nat → Nat → Nat → Nat
  | alignment_size, next_alignment_size, Nat.succ fuel =>
    if next_alignment_size ≤ max_alignment_size_in_byte ∧
        ptr_address % next_alignment_size = 0 then
      computeAlignmentSizeGo ptr_address next_alignment_size (2 * next_alignment_size) fuel
    else
      alignment_size
  | alignment_size, _, 0 => alignment_size

/-- Source: SchedulerRuntimeInfo::computeAlignmentSize starts from alignment 1
and doubles while the next power of two still divides the address and does not
exceed max_alignment_size_in_byte. -/
def computeAlignmentSize (ptr_address : Nat) : Nat :=
  computeAlignmentSizeGo ptr_address 1 2 5

/-- Specification-side definition for claim C9: the largest power of two,
capped at 16, dividing n.  Compared against computeAlignmentSize. -/
def maxPow2DivLe16 (n : Nat) : Nat :=
  if n % 16 = 0 then 16
  else if n % 8 = 0 then 8
  else if n % 4 = 0 then 4
  else if n % 2 = 0 then 2
  else 1

/-- The parts of SchedulerRuntimeInfo relevant to alignment queries.  Tensor
views are identified by their name (a Nat).  input_ptrs and
input_discontig_strides are populated by the constructor for fusion-input
tensors only (registry.cpp lines 49-105); alignment_map is the memoization
cache of getAlignmentSize. -/
structure SchedulerRuntimeInfo where
  input_ptrs : List (Nat × Nat)
  input_discontig_strides : List (Nat × List Nat)
  alignment_map : List (Nat × Nat)

/-- Source: SchedulerRuntimeInfo::ptrOf returns the recorded base address of a
fusion-input tensor and max_alignment_size_in_byte for any other tensor. -/
def SchedulerRuntimeInfo.ptrOf (info : SchedulerRuntimeInfo) (tv : Nat) : Nat :=
  match info.input_ptrs.lookup tv with
  | some p => p
  | none => max_alignment_size_in_byte

/-- Source: SchedulerRuntimeInfo::getAlignmentSize returns the memoized value
when present; otherwise computes the alignment of the tensor's base address,
takes the minimum with the alignment of each recorded discontiguous stride,
memoizes and returns it. -/
def SchedulerRuntimeInfo.getAlignmentSize (info : SchedulerRuntimeInfo) (tv : Nat) :
    Nat × SchedulerRuntimeInfo :=
  match info.alignment_map.lookup tv with
  | some v => (v, info)
  | none =>
    let alignment0 := computeAlignmentSize (info.ptrOf tv)
    let alignment :=
      match info.input_discontig_strides.lookup tv with
      | some strides =>
        strides.foldl (fun a s => min a (computeAlignmentSize s)) alignment0
      | none => alignment0
    (alignment, { info with alignment_map := (tv, alignment) :: info.alignment_map })

/-! ## Allocation placement (device_lower utils, getAllocInformation) -/

/-- Parallel types of an iter domain (the subset the modelled passes read). -/
inductive ParallelType where
  | Serial
  | TIDx
  | TIDy
  | TIDz
  | BIDx
  | BIDy
  | BIDz
  | Unroll
  | Unswitch
  | Vectorize
deriving DecidableEq

/-- Memory types of a tensor view. -/
inductive MemoryType where
  | Global
  | Shared
  | Local
  | Tensor
deriving DecidableEq

/-- An iter domain of a loop domain: its identity and reduction flag. -/
structure IterDomainM where
  idName : Nat
  isReduction : Bool
deriving DecidableEq

/-- The parts of a TensorView read by getAllocInformation: compute-at
position, loop domain, memory type, circular-buffer state, and whether the
tensor is among the fusion's terminating outputs. -/
structure TensorViewM where
  computeAtPosition : Nat
  axes : List IterDomainM
  memoryType : MemoryType
  isCircularBuffered : Bool
  circularBufferAxis : Option Nat
  isTerminatingOutput : Bool

/-- A lowered for-loop: its iter domain identity and parallel type. -/
structure ForLoopM where
  iterDomain : Nat
  parallelType : ParallelType
deriving DecidableEq

/-- The compute-at map, abstracted to its PERMISSIVE areMapped query over
iter-domain identities. -/
structure CaMapM where
  areMapped : Nat → Nat → Bool

/-- Source: BasicAllocInfo (lower_utils.h): the loop to place the
initialization in, the loop to place the allocation in, and the allocation
position. -/
structure BasicAllocInfo where
  init_for_loop : Option ForLoopM
  alloc_for_loop : Option ForLoopM
  alloc_pos : Nat
deriving DecidableEq

/-- The loop body of getAllocInformation, one iteration per enclosing
for-loop, with the two NVF_ERROR conditions modelled as none: the walk breaks
once alloc_pos reaches the tensor's compute-at position, breaks at a reduction
axis (erroring unless the tensor is a terminating output) or at an Unroll
loop, tracks whether an outer allocation is forced (unswitched shared memory,
global memory, circular-buffered axis), and advances alloc_pos whenever the
current axis is permissively mapped to the loop's iter domain. -/
def getAllocInformationGo (caMap : CaMapM) (tv : TensorViewM)
    (id_map : List (Nat × Nat)) (use_id_map : Bool) :
    List ForLoopM → BasicAllocInfo → Bool → Option BasicAllocInfo
  | [], info, _ => some info
  | fl :: rest, info, outer_alloc_found =>
    if info.alloc_pos = tv.computeAtPosition then
      some info
    else
      match tv.axes.get? info.alloc_pos with
      | none => none
      | some ax =>
        if ax.isReduction then
          if tv.isTerminatingOutput then some info else none
        else if fl.parallelType = ParallelType.Unroll then
          some info
        else
          let outer_alloc_found' := outer_alloc_found
            || (fl.parallelType = ParallelType.Unswitch &&
                tv.memoryType = MemoryType.Shared)
            || tv.memoryType = MemoryType.Global
            || (tv.isCircularBuffered && tv.circularBufferAxis = some ax.idName)
          let local_id :=
            if use_id_map then
              match id_map.lookup ax.idName with
              | some mapped => mapped
              | none => ax.idName
            else
              ax.idName
          let info' : BasicAllocInfo :=
            { alloc_pos :=
                if caMap.areMapped local_id fl.iterDomain then
                  info.alloc_pos + 1
                else
                  info.alloc_pos,
              init_for_loop := some fl,
              alloc_for_loop :=
                if !outer_alloc_found' then some fl else info.alloc_for_loop }
          getAllocInformationGo caMap tv id_map use_id_map rest info' outer_alloc_found'

/-- Source: getAllocInformation walks the given loop nest starting from
allocation position 0 with no outer allocation found. -/
def getAllocInformation (caMap : CaMapM) (tv : TensorViewM)
    (id_map : List (Nat × Nat)) (use_id_map : Bool)
    (for_loops : List ForLoopM) : Option BasicAllocInfo :=
  getAllocInformationGo caMap tv id_map use_id_map for_loops ⟨none, none, 0⟩ false

/-! ## Pointwise reference tensor selection (DomainMap::findReferenceTensorView) -/

/-- A fusion output as seen by DomainMap::findReferenceTensorView: whether it
is a valid reference (DomainMap::isValidReference, an analysis whose body is
outside the provided sources, kept abstract), whether it is also a fusion
input, and the reduction flags of its logical domain. -/
structure OutputTv where
  isValidReference : Bool
  isFusionInput : Bool
  logicalDomain : List Bool

/-- Modelled from the spec: pointwise_utils::nRootDims is not among the
provided sources; the spec counts the non-reduction logical dims of the
output. -/
def nRootDims (tv : OutputTv) : Nat :=
  (tv.logicalDomain.filter (fun r => !r)).length

/-- Source: hasMinimumSize(tv, num_axes) holds when num_axes is 0 or the
logical domain has more than num_axes axes. -/
def hasMinimumSize (tv : OutputTv) (num_axes : Nat) : Bool :=
  num_axes == 0 || tv.logicalDomain.length > num_axes

/-- The candidate filter of the findReferenceTensorView loop: a valid
reference of minimum size that is not a fusion input. -/
def passesFilter (num_axes : Nat) (tv : OutputTv) : Bool :=
  tv.isValidReference && hasMinimumSize tv num_axes && !tv.isFusionInput

/-- The loop of DomainMap::findReferenceTensorView: scans the outputs in
order, keeping the current result and max_dims (initially nullptr and -1), and
replaces the result when a passing candidate has strictly more non-reduction
logical dims than max_dims.  Outputs are identified by their position. -/
def frGo (num_axes : Nat) :
    List OutputTv → Nat → Option (Nat × OutputTv) → Int → Option (Nat × OutputTv)
  | [], _, result, _ => result
  | tv :: rest, idx, result, max_dims =>
    if passesFilter num_axes tv = true ∧ max_dims < (nRootDims tv : Int) then
      frGo num_axes rest (idx + 1) (some (idx, tv)) (nRootDims tv)
    else
      frGo num_axes rest (idx + 1) result max_dims

/-- Source: findReferenceTensorView starts the scan with no result and
max_dims = -1. -/
def findReferenceTensorView (outputs : List OutputTv) (minimum_num_axes : Nat) :
    Option (Nat × OutputTv) :=
  frGo minimum_num_axes outputs 0 none (-1)

/-! ## Pointwise scheduler 2-D break-point heuristics (getPointwiseHeuristics) -/

/-- Source constant kThreadX = 128. -/
def kThreadX : Nat := 128

/-- Source ceilDiv on nonnegative 64-bit integers. -/
def ceilDiv (a b : Nat) : Nat := (a + b - 1) / b

/-- std::numeric_limits of int64_t ::max(), the initial min_total_transfer. -/
def int64_max : Nat := 2 ^ 63 - 1

/-- The inputs of the break-point selection block of getPointwiseHeuristics:
the evaluated extents of the reference root domain, the broadcast byte
multiples per position (lhs_multiple, rhs_multiple), the view-coherence oracle
breakIsDisjoint, the summed input/output data-type sizes, the unroll factor
computed earlier in the function, and the device constants. -/
structure PwInputs where
  elem_counts : List Nat
  broadcast_byte_multiples : List (Nat × Nat)
  breakIsDisjoint : Nat → Bool
  dtype_sum : Nat
  max_unroll_factor : Nat
  device_multiprocessor_count : Nat
  warpSize : Nat
  l2CacheSize : Nat

/-- The mutable locals of the break-point selection block. -/
structure BreakState where
  break_point : Nat
  flip_grid_binding : Bool
  right_elem_count : Nat
  bdimx : Nat
  bdimy : Nat
  gdim_left : Nat
  gdim_right : Nat
  min_total_transfer : Nat
deriving DecidableEq

/-- Initial values of the locals (source lines preceding the block). -/
def initBreakState : BreakState :=
  ⟨0, false, 0, kThreadX, 1, 1, 1, int64_max⟩

/-- Number of elements in the right side of the reference at a break point:
the product of the extents from the break point on. -/
def rightElemCountAt (inp : PwInputs) (bpi : Nat) : Nat :=
  (inp.elem_counts.drop bpi).foldl (fun a e => a * e) 1

/-- The lhs broadcast byte multiple at a break point. -/
def lhsMultiple (inp : PwInputs) (bpi : Nat) : Nat :=
  (inp.broadcast_byte_multiples.getD bpi (0, 0)).1

/-- The rhs broadcast byte multiple at a break point. -/
def rhsMultiple (inp : PwInputs) (bpi : Nat) : Nat :=
  (inp.broadcast_byte_multiples.getD bpi (0, 0)).2

/-- The estimated transfer size of the left side at a break point: product of
the left extents, each weighted by the lhs byte multiple. -/
def leftTransferSize (inp : PwInputs) (bpi : Nat) : Nat :=
  (List.range bpi).foldl (fun a i => a * inp.elem_counts.getD i 0 * lhsMultiple inp bpi) 1

/-- The estimated transfer size of the right side at a break point: product of
the right extents, each weighted by the rhs byte multiple. -/
def rightTransferSize (inp : PwInputs) (bpi : Nat) : Nat :=
  (inp.elem_counts.drop bpi).foldl (fun a e => a * e * rhsMultiple inp bpi) 1

/-- One iteration of the break-point loop (source: the body over
break_point_i).  The three continue conditions are: the break is incoherent
with a view, the left side has at most one element, the transfer estimate does
not beat the current minimum or does not save 10 percent over 1-D scheduling,
or the right side lacks an unrolled warp of parallelism.  An adopted break
point sets flip_grid_binding to whether the lhs byte multiple does not exceed
the rhs one and the right transfer size exceeds half the L2 cache, then
records bdimx, bdimy, the two grid remainders and the new minimum. -/
def processBreakPoint (inp : PwInputs) (n_elems transfer_size_1d : Nat)
    (st : BreakState) (bpi : Nat) : BreakState :=
  if !(inp.breakIsDisjoint bpi) then
    st
  else
    let cur_right_elem_count := rightElemCountAt inp bpi
    let cur_left_elem_count := n_elems / cur_right_elem_count
    if cur_left_elem_count ≤ 1 then
      st
    else
      let cur_transfer_size := leftTransferSize inp bpi * rightTransferSize inp bpi
      if st.min_total_transfer ≤ cur_transfer_size ∨
          transfer_size_1d * 9 ≤ cur_transfer_size * 10 then
        st
      else if ceilDiv cur_right_elem_count inp.max_unroll_factor ≤ inp.warpSize then
        st
      else
        let flip := lhsMultiple inp bpi ≤ rhsMultiple inp bpi ∧
          inp.l2CacheSize < rightTransferSize inp bpi * 2
        let bdimx := min (ceilDiv cur_right_elem_count inp.max_unroll_factor) kThreadX
        let bdimy :=
          if inp.device_multiprocessor_count < cur_left_elem_count then
            kThreadX / bdimx
          else
            1
        { break_point := bpi,
          flip_grid_binding := decide flip,
          right_elem_count := cur_right_elem_count,
          bdimx := bdimx,
          bdimy := bdimy,
          gdim_left := ceilDiv cur_left_elem_count bdimy,
          gdim_right := ceilDiv cur_right_elem_count (bdimx * inp.max_unroll_factor),
          min_total_transfer := cur_transfer_size }

/-- The guards under which a candidate break point is adopted (the three
continue conditions of the loop body all fail). -/
def breakPointAdopted (inp : PwInputs) (n_elems transfer_size_1d : Nat)
    (st : BreakState) (bpi : Nat) : Prop :=
  inp.breakIsDisjoint bpi = true ∧
  1 < n_elems / rightElemCountAt inp bpi ∧
  leftTransferSize inp bpi * rightTransferSize inp bpi < st.min_total_transfer ∧
  (leftTransferSize inp bpi * rightTransferSize inp bpi) * 10 < transfer_size_1d * 9 ∧
  inp.warpSize < ceilDiv (rightElemCountAt inp bpi) inp.max_unroll_factor

/-- The break-point loop (source: the empty scope in getPointwiseHeuristics):
when enough parallelism is available, every break point position is
considered in order; otherwise the 1-D defaults stand. -/
def breakPointLoop (inp : PwInputs) : BreakState :=
  let n_elems := inp.elem_counts.foldl (fun a e => a * e) 1
  let transfer_size_1d := inp.elem_counts.foldl (fun a e => a * e * inp.dtype_sum) 1
  if inp.device_multiprocessor_count * kThreadX < n_elems * 2 then
    (List.range inp.elem_counts.length).foldl
      (processBreakPoint inp n_elems transfer_size_1d) initBreakState
  else
    initBreakState

/-- The pointwise parameters relevant to the grid binding. -/
structure PointwiseParamsM where
  break_point : Nat
  flip_grid_binding : Bool
  split_block : Bool
  split_grid_y_dim : Bool
  gdim_left : Nat
  gdim_right : Nat
deriving DecidableEq

/-- Source: the parameter assignments after the break-point loop, including
the two NVF_ERROR assertions (modelled as none) and the split_grid_y_dim
assignment: it is set when the flipped binding has gdim_right over 65535, or
the unflipped binding has gdim_left over 65535. -/
def finalizePointwiseParams (st : BreakState) : Option PointwiseParamsM :=
  if st.right_elem_count = 0 ∧ st.break_point ≠ 0 then
    none
  else if 1 < st.bdimy ∧ 1 < st.gdim_right then
    none
  else
    some { break_point := st.break_point,
           flip_grid_binding := st.flip_grid_binding,
           split_block := decide (1 < st.bdimy),
           split_grid_y_dim :=
             (st.flip_grid_binding && decide (65535 < st.gdim_right)) ||
             (!st.flip_grid_binding && decide (65535 < st.gdim_left)),
           gdim_left := st.gdim_left,
           gdim_right := st.gdim_right }

/-- The modelled slice of getPointwiseHeuristics: break-point selection
followed by the grid-binding parameter assignments. -/
def getPointwiseHeuristics (inp : PwInputs) : Option PointwiseParamsM :=
  finalizePointwiseParams (breakPointLoop inp)

/-- A concrete heuristics input: two dims 100 x 16777216, one float input and
one float output (byte multiples (4, 8) at the break between the dims,
dtype_sum 8), unroll factor 1, one SM, warp size 32, a 2^62-byte L2. -/
def pwExampleInput : PwInputs :=
  ⟨[100, 16777216], [(8, 8), (4, 8)], fun _ => true, 8, 1, 1, 32,
    4611686018427387904⟩

/-! ## Non-divisible split analysis (modelled from the spec)

The implementation of GpuLower's NonDivisibleSplitInfo is not among the
provided sources; only its tests are (FusionNonDivisibleSplit*).  The model
below follows the spec: a split whose factor does not provably divide the
parent extent is non-divisible; a non-divisible split of a domain already
covered by the logical-domain bounds predicate (the outer chain of the
transform tree) needs no extra treatment, while a non-divisible split of an
inner-derived domain is recorded; a recorded split whose outputs feed a
Vectorize-parallelized axis is registered to validate at run time, any other
recorded split is registered to predicate per iteration. -/

/-- Modelled from the spec: symbolic extents of iter domains — a symbolic
input extent, a constant, or a ceil-division of an extent by a factor. -/
inductive ExtentE where
  | sym : Nat → ExtentE
  | const : Nat → ExtentE
  | cdiv : ExtentE → Nat → ExtentE
deriving DecidableEq

/-- Modelled from the spec: divisibility of an extent by a split factor is
provable at compile time only for constant extents. -/
def provablyDivisible : ExtentE → Nat → Bool
  | ExtentE.const n, f => decide (0 < f) && decide (n % f = 0)
  | _, _ => false

/-- Modelled from the spec: an axis of the scheduled loop domain.  The
innerDerived flag records that the axis descends through the inner output of
some split, so its indices are not covered by the logical-domain bounds
predicate; ancestors lists the split ids the axis descends from; vectorized
records a Vectorize parallelization. -/
structure AxisM where
  extent : ExtentE
  innerDerived : Bool
  ancestors : List Nat
  vectorized : Bool
deriving DecidableEq

/-- Modelled from the spec: the scheduling operations the analysis follows —
split(axis, factor, inner) and parallelize(axis, Vectorize). -/
inductive SchedOp where
  | splitOp (axis factor : Nat) (inner_split : Bool)
  | vectorizeOp (axis : Nat)

/-- Modelled from the spec: the analysis state — the current axes, the next
fresh split id, and the recorded non-divisible candidate splits. -/
structure PassState where
  axes : List AxisM
  nextId : Nat
  nonDivisibleSplits : List Nat
deriving DecidableEq

/-- Modelled from the spec: one scheduling operation.  A split of axis i with
factor f replaces the axis by an outer and an inner output (ceil-divided and
constant extents, ordered by the inner_split flag); the inner output is
inner-derived, the outer output inherits the flag; both outputs carry the
split's id in their ancestry.  The split is recorded as a non-divisible
candidate when its input axis is inner-derived and divisibility is not
provable.  A vectorize operation marks the axis. -/
def applyOp (st : PassState) : SchedOp → PassState
  | SchedOp.splitOp i f inner_split =>
    match st.axes.get? i with
    | none => st
    | some ax =>
      let anc := st.nextId :: ax.ancestors
      let outs : List AxisM :=
        if inner_split then
          [⟨ExtentE.cdiv ax.extent f, ax.innerDerived, anc, false⟩,
           ⟨ExtentE.const f, true, anc, false⟩]
        else
          [⟨ExtentE.const f, ax.innerDerived, anc, false⟩,
           ⟨ExtentE.cdiv ax.extent f, true, anc, false⟩]
      { axes := st.axes.take i ++ outs ++ st.axes.drop (i + 1),
        nextId := st.nextId + 1,
        nonDivisibleSplits :=
          if ax.innerDerived && !provablyDivisible ax.extent f then
            st.nonDivisibleSplits ++ [st.nextId]
          else
            st.nonDivisibleSplits }
  | SchedOp.vectorizeOp i =>
    match st.axes.get? i with
    | none => st
    | some ax => { st with axes := st.axes.set i { ax with vectorized := true } }

/-- Modelled from the spec: the initial state from the logical domain. -/
def initPassState (root : List ExtentE) : PassState :=
  ⟨root.map (fun e => ⟨e, false, [], false⟩), 0, []⟩

/-- Modelled from the spec: run a schedule from the logical domain. -/
def runSched (root : List ExtentE) (ops : List SchedOp) : PassState :=
  ops.foldl applyOp (initPassState root)

/-- Whether a recorded split's outputs feed a Vectorize-parallelized axis:
some axis of the final loop domain is vectorized and descends from the
split. -/
def feedsVectorize (st : PassState) (id : Nat) : Bool :=
  st.axes.any (fun a => a.vectorized && a.ancestors.contains id)

/-- Modelled from the spec: the recorded non-divisible splits registered for
run-time validation — those feeding a Vectorize axis. -/
def splitsToValidate (st : PassState) : List Nat :=
  st.nonDivisibleSplits.filter (fun id => feedsVectorize st id)

/-- Modelled from the spec: the recorded non-divisible splits registered for
per-iteration predication — all the others. -/
def splitsToPredicate (st : PassState) : List Nat :=
  st.nonDivisibleSplits.filter (fun id => !feedsVectorize st id)

end Fuser

/-! ## Theorems -/

/-- Helper: computeAlignmentSize agrees with the specification-side largest
power of two at most 16 dividing the address. -/
theorem computeAlignmentSize_eq_maxPow2 (n : Nat) :
    Fuser.computeAlignmentSize n = Fuser.maxPow2DivLe16 n := by
  by_cases h2 : n % 2 = 0 <;> by_cases h4 : n % 4 = 0 <;>
    by_cases h8 : n % 8 = 0 <;> by_cases h16 : n % 16 = 0 <;>
    first
    | (exfalso; omega)
    | simp [Fuser.computeAlignmentSize, Fuser.computeAlignmentSizeGo,
        Fuser.max_alignment_size_in_byte, Fuser.maxPow2DivLe16, h2, h4, h8, h16]

/-- Helper: maxPow2DivLe16 n divides n. -/
theorem maxPow2DivLe16_dvd (n : Nat) : Fuser.maxPow2DivLe16 n ∣ n := by
  unfold Fuser.maxPow2DivLe16
  split
  · exact Nat.dvd_of_mod_eq_zero (by assumption)
  · split
    · exact Nat.dvd_of_mod_eq_zero (by assumption)
    · split
      · exact Nat.dvd_of_mod_eq_zero (by assumption)
      · split
        · exact Nat.dvd_of_mod_eq_zero (by assumption)
        · exact Nat.one_dvd n

/-- Helper: maxPow2DivLe16 n is a power of two with exponent at most 4. -/
theorem maxPow2DivLe16_pow (n : Nat) :
    ∃ k, k ≤ 4 ∧ Fuser.maxPow2DivLe16 n = 2 ^ k := by
  unfold Fuser.maxPow2DivLe16
  split
  · exact ⟨4, by omega, rfl⟩
  · split
    · exact ⟨3, by omega, rfl⟩
    · split
      · exact ⟨2, by omega, rfl⟩
      · split
        · exact ⟨1, by omega, rfl⟩
        · exact ⟨0, by omega, rfl⟩

/-- Helper: maxPow2DivLe16 n is the largest power of two at most 16
dividing n. -/
theorem maxPow2DivLe16_max (n k : Nat) (hk : k ≤ 4) (hdvd : 2 ^ k ∣ n) :
    2 ^ k ≤ Fuser.maxPow2DivLe16 n := by
  obtain ⟨c, rfl⟩ := hdvd
  have hmod : 2 ^ k * c % 2 ^ k = 0 := Nat.mul_mod_right _ _
  unfold Fuser.maxPow2DivLe16
  interval_cases k <;> split_ifs <;> omega

/-- Helper: a left fold of min over a mapped list is bounded by its initial
value. -/
theorem foldl_min_le_init (f : Nat → Nat) :
    ∀ (l : List Nat) (a : Nat), l.foldl (fun acc x => min acc (f x)) a ≤ a := by
  intro l
  induction l with
  | nil => intro a; simp
  | cons hd tl ih =>
    intro a
    calc tl.foldl (fun acc x => min acc (f x)) (min a (f hd)) ≤ min a (f hd) := ih _
    _ ≤ a := Nat.min_le_left _ _

/-- Helper: a left fold of min over a mapped list is bounded by the image of
each member. -/
theorem foldl_min_le_mem (f : Nat → Nat) :
    ∀ (l : List Nat) (a s : Nat), s ∈ l →
      l.foldl (fun acc x => min acc (f x)) a ≤ f s := by
  intro l
  induction l with
  | nil => intro a s hs; cases hs
  | cons hd tl ih =>
    intro a s hs
    cases hs with
    | head =>
      calc tl.foldl (fun acc x => min acc (f x)) (min a (f hd)) ≤ min a (f hd) :=
        foldl_min_le_init f tl _
      _ ≤ f hd := Nat.min_le_right _ _
    | tail _ hmem => exact ih _ s hmem

/-- Helper: canSchedule without a data cache is the conjunction of the
compile-time portion and the run-time portion of the check. -/
theorem canSchedule_eq_gates (gates : Fuser.SchedulerGates) (fusion : Fuser.FusionProps)
    (sh : Fuser.ScheduleHeuristic) :
    Fuser.SchedulerEntry.canSchedule gates fusion sh false =
      (Fuser.compileTimeGate gates fusion sh && Fuser.runTimeGate gates sh) := by
  cases sh <;>
    simp only [Fuser.SchedulerEntry.canSchedule, Fuser.checkCanSchedule,
      Fuser.compileTimeGate, Fuser.runTimeGate, Bool.not_false] <;>
  · cases fusion.hasSdpaOps <;> cases fusion.hasMatmulOps <;>
      cases fusion.isConnectedFusionGraph <;> cases fusion.hasSelfMapping <;>
      simp

/-- Helper: a successful find? returns the first element of the list
satisfying the predicate: there is a position holding the result, the result
satisfies the predicate, and every element at an earlier position fails it. -/
theorem find?_first_spec {α : Type} (p : α → Bool) :
    ∀ (l : List α) (a : α), l.find? p = some a →
      ∃ i, l.get? i = some a ∧ p a = true ∧
        ∀ j b, j < i → l.get? j = some b → p b = false := by
  intro l
  induction l with
  | nil => intro a h; simp [List.find?] at h
  | cons hd tl ih =>
    intro a h
    rw [List.find?] at h
    cases hp : p hd with
    | true =>
      rw [hp] at h
      injection h with h1
      subst h1
      exact ⟨0, rfl, hp, fun j b hj _ => absurd hj (by omega)⟩
    | false =>
      rw [hp] at h
      obtain ⟨i, hget, hpa, hbefore⟩ := ih a h
      refine ⟨i + 1, by simpa using hget, hpa, ?_⟩
      intro j b hj hgetj
      cases j with
      | zero =>
        simp at hgetj
        cases hgetj
        exact hp
      | succ k =>
        exact hbefore k b (by omega) (by simpa using hgetj)

/-- Claim C3: SchedulerEntry::proposeHeuristics tries the schedulers in the
fixed priority order ExprEval, NoOp, Matmul, Transpose, InnerPersistent,
OuterPersistent, InnerOuterPersistent, Reduction, PointWise and returns the
first scheduler kind for which both the compile-time gate and the run-time
gate hold (ExprEval's run-time gate is constantly true); it returns no
heuristic exactly when every scheduler in the list rejects the fusion.  The
priority list itself is modelled from the spec, since registry.h is not among
the provided sources. -/
theorem C3_propose_heuristics_first_accepted (gates : Fuser.SchedulerGates)
    (fusion : Fuser.FusionProps) :
    (Fuser.SchedulerEntry.proposeHeuristics gates fusion =
      Fuser.all_heuristics_in_priority_order.find?
        (fun sh => Fuser.compileTimeGate gates fusion sh && Fuser.runTimeGate gates sh)) ∧
    (∀ sh, Fuser.SchedulerEntry.proposeHeuristics gates fusion = some sh →
      ∃ i, Fuser.all_heuristics_in_priority_order.get? i = some sh ∧
        (Fuser.compileTimeGate gates fusion sh && Fuser.runTimeGate gates sh) = true ∧
        ∀ j sh2, j < i → Fuser.all_heuristics_in_priority_order.get? j = some sh2 →
          (Fuser.compileTimeGate gates fusion sh2 && Fuser.runTimeGate gates sh2) = false) ∧
    (Fuser.SchedulerEntry.proposeHeuristics gates fusion = none ↔
      ∀ sh ∈ Fuser.all_heuristics_in_priority_order,
        Fuser.SchedulerEntry.canSchedule gates fusion sh false = false) := by
  have hfun : (fun sh => Fuser.SchedulerEntry.canSchedule gates fusion sh false) =
      (fun sh => Fuser.compileTimeGate gates fusion sh && Fuser.runTimeGate gates sh) := by
    funext sh
    exact canSchedule_eq_gates gates fusion sh
  have hprop : Fuser.SchedulerEntry.proposeHeuristics gates fusion =
      Fuser.all_heuristics_in_priority_order.find?
        (fun sh => Fuser.compileTimeGate gates fusion sh && Fuser.runTimeGate gates sh) := by
    rw [Fuser.SchedulerEntry.proposeHeuristics, hfun]
  refine ⟨hprop, ?_, ?_⟩
  · intro sh hsh
    exact find?_first_spec _ _ sh (hprop ▸ hsh)
  · rw [Fuser.SchedulerEntry.proposeHeuristics, List.find?_eq_none]
    constructor
    · intro h sh hmem
      have := h sh hmem
      simpa using this
    · intro h sh hmem
      simp [h sh hmem]

/-- Witness for C3: with all-true gates on a clean fusion, the first
scheduler in priority order, ExprEval, is proposed, and the claim theorem
certifies that both of its gates hold. -/
theorem C3_propose_heuristics_first_accepted_witness :
    Fuser.SchedulerEntry.proposeHeuristics ⟨fun _ => true, fun _ => true⟩
      ⟨false, false, true, false⟩ = some Fuser.ScheduleHeuristic.ExprEval ∧
    (Fuser.compileTimeGate ⟨fun _ => true, fun _ => true⟩ ⟨false, false, true, false⟩
        Fuser.ScheduleHeuristic.ExprEval &&
      Fuser.runTimeGate ⟨fun _ => true, fun _ => true⟩
        Fuser.ScheduleHeuristic.ExprEval) = true := by
  have h := (C3_propose_heuristics_first_accepted ⟨fun _ => true, fun _ => true⟩
      ⟨false, false, true, false⟩).2.1 Fuser.ScheduleHeuristic.ExprEval rfl
  obtain ⟨i, hget, hgate, hbef⟩ := h
  exact ⟨rfl, hgate⟩

/-- Claim C4: with no data cache supplied, a fusion containing matmul ops
(MatmulOp, LinearOp, MmaOp) is rejected by canSchedule for every scheduler
kind other than Matmul, and a fusion containing SDPA ops (SdpaFwdOp,
SdpaBwdOp) is rejected by canSchedule for every scheduler kind other than
ExprEval.  The rejection is an early NO: it holds for every choice of the
scheduler-specific compile-time and run-time gates, so those gates are never
decisive.  (The ExprEval scheduler's own compile-time gate is not among the
provided sources and is modelled from the spec's hard-rejection list.) -/
theorem C4_matmul_sdpa_early_rejection (gates : Fuser.SchedulerGates)
    (fusion : Fuser.FusionProps) (sh : Fuser.ScheduleHeuristic) :
    (fusion.hasMatmulOps = true → sh ≠ Fuser.ScheduleHeuristic.Matmul →
      Fuser.SchedulerEntry.canSchedule gates fusion sh false = false) ∧
    (fusion.hasSdpaOps = true → sh ≠ Fuser.ScheduleHeuristic.ExprEval →
      Fuser.SchedulerEntry.canSchedule gates fusion sh false = false) := by
  constructor
  · intro hmm hne
    cases sh <;>
      simp_all [Fuser.SchedulerEntry.canSchedule, Fuser.checkCanSchedule,
        Fuser.exprEvalCanScheduleCompileTime]
  · intro hsdpa hne
    cases sh <;>
      simp_all [Fuser.SchedulerEntry.canSchedule, Fuser.checkCanSchedule]

/-- Witness for C4: a concrete fusion with both matmul and SDPA ops, with
all-true scheduler gates, is rejected by the PointWise scheduler through both
parts of the claim. -/
theorem C4_matmul_sdpa_early_rejection_witness :
    Fuser.SchedulerEntry.canSchedule ⟨fun _ => true, fun _ => true⟩
      ⟨true, true, true, false⟩ Fuser.ScheduleHeuristic.PointWise false = false :=
  (C4_matmul_sdpa_early_rejection ⟨fun _ => true, fun _ => true⟩
      ⟨true, true, true, false⟩ Fuser.ScheduleHeuristic.PointWise).1 rfl (by decide)

/-- Claim C9: for a fusion-input tensor, getAlignmentSize returns the largest
power of two (capped at the maximum alignment size of 16 bytes) dividing the
tensor's base address, reduced by taking the minimum with the largest power of
two dividing each recorded discontiguous stride in bytes; the result is
memoized, so a repeated call on the same tensor returns the same value and
leaves the state unchanged.  maxPow2DivLe16 is the specification-side
characterization and the other conjuncts identify it as the largest power of
two at most 16 dividing its argument. -/
theorem C9_get_alignment_size (info : Fuser.SchedulerRuntimeInfo) (tv ptr : Nat)
    (strides : List Nat)
    (hptr : info.input_ptrs.lookup tv = some ptr)
    (hstr : info.input_discontig_strides.lookup tv = some strides)
    (hmap : info.alignment_map.lookup tv = none) :
    ((info.getAlignmentSize tv).1 =
      strides.foldl (fun a s => min a (Fuser.maxPow2DivLe16 s)) (Fuser.maxPow2DivLe16 ptr)) ∧
    (Fuser.maxPow2DivLe16 ptr ∣ ptr ∧ ∃ k, k ≤ 4 ∧ Fuser.maxPow2DivLe16 ptr = 2 ^ k) ∧
    (∀ k, k ≤ 4 → 2 ^ k ∣ ptr → 2 ^ k ≤ Fuser.maxPow2DivLe16 ptr) ∧
    ((info.getAlignmentSize tv).1 ≤ Fuser.maxPow2DivLe16 ptr) ∧
    (∀ s ∈ strides, (info.getAlignmentSize tv).1 ≤ Fuser.maxPow2DivLe16 s) ∧
    ((info.getAlignmentSize tv).2.getAlignmentSize tv =
      ((info.getAlignmentSize tv).1, (info.getAlignmentSize tv).2)) := by
  have hval : (info.getAlignmentSize tv).1 =
      strides.foldl (fun a s => min a (Fuser.maxPow2DivLe16 s))
        (Fuser.maxPow2DivLe16 ptr) := by
    simp only [Fuser.SchedulerRuntimeInfo.getAlignmentSize, hmap,
      Fuser.SchedulerRuntimeInfo.ptrOf, hptr, hstr]
    have hfun : (fun a s => min a (Fuser.computeAlignmentSize s)) =
        (fun a s => min a (Fuser.maxPow2DivLe16 s)) := by
      funext a s
      rw [computeAlignmentSize_eq_maxPow2]
    rw [computeAlignmentSize_eq_maxPow2, hfun]
  refine ⟨hval, ⟨maxPow2DivLe16_dvd ptr, maxPow2DivLe16_pow ptr⟩,
    fun k hk hd => maxPow2DivLe16_max ptr k hk hd, ?_, ?_, ?_⟩
  · rw [hval]
    exact foldl_min_le_init _ strides _
  · intro s hs
    rw [hval]
    exact foldl_min_le_mem _ strides _ s hs
  · simp only [Fuser.SchedulerRuntimeInfo.getAlignmentSize, hmap,
      Fuser.SchedulerRuntimeInfo.ptrOf, hptr, hstr, List.lookup]
    simp

/-- Witness for C9: a concrete input tensor at address 24 with discontiguous
strides 8 and 6 bytes gets alignment min(8, 8, 2) = 2, computed through the
claim theorem. -/
theorem C9_get_alignment_size_witness :
    (Fuser.SchedulerRuntimeInfo.getAlignmentSize ⟨[(0, 24)], [(0, [8, 6])], []⟩ 0).1 =
      [8, 6].foldl (fun a s => min a (Fuser.maxPow2DivLe16 s)) (Fuser.maxPow2DivLe16 24) :=
  (C9_get_alignment_size ⟨[(0, 24)], [(0, [8, 6])], []⟩ 0 24 [8, 6] rfl rfl rfl).1

/-- Claim C10: for a tensor that is not a fusion input (no recorded base
address and no recorded discontiguous strides), ptrOf returns the maximum
alignment size of 16 bytes instead of a real address, and getAlignmentSize
consequently returns 16. -/
theorem C10_non_input_alignment (info : Fuser.SchedulerRuntimeInfo) (tv : Nat)
    (hptr : info.input_ptrs.lookup tv = none)
    (hstr : info.input_discontig_strides.lookup tv = none)
    (hmap : info.alignment_map.lookup tv = none) :
    info.ptrOf tv = Fuser.max_alignment_size_in_byte ∧
    info.ptrOf tv = 16 ∧
    (info.getAlignmentSize tv).1 = 16 := by
  have hp : info.ptrOf tv = 16 := by
    simp [Fuser.SchedulerRuntimeInfo.ptrOf, hptr, Fuser.max_alignment_size_in_byte]
  refine ⟨hp, hp, ?_⟩
  simp only [Fuser.SchedulerRuntimeInfo.getAlignmentSize, hmap, hstr, hp]
  decide

/-- Witness for C10: with an empty runtime-info state, tensor 7 is not a
fusion input, and getAlignmentSize returns 16 through the claim theorem. -/
theorem C10_non_input_alignment_witness :
    (Fuser.SchedulerRuntimeInfo.getAlignmentSize ⟨[], [], []⟩ 7).1 = 16 :=
  (C10_non_input_alignment ⟨[], [], []⟩ 7 rfl rfl rfl).2.2

/-- Helper: the allocation-information walk never pushes the allocation
position past the tensor's compute-at position, starting from any state whose
position already respects the bound. -/
theorem getAllocInformationGo_le (caMap : Fuser.CaMapM) (tv : Fuser.TensorViewM)
    (id_map : List (Nat × Nat)) (use_id_map : Bool) :
    ∀ (loops : List Fuser.ForLoopM) (info : Fuser.BasicAllocInfo)
      (outer : Bool) (r : Fuser.BasicAllocInfo),
      info.alloc_pos ≤ tv.computeAtPosition →
      Fuser.getAllocInformationGo caMap tv id_map use_id_map loops info outer = some r →
      r.alloc_pos ≤ tv.computeAtPosition := by
  intro loops
  induction loops with
  | nil =>
    intro info outer r hle hrun
    rw [Fuser.getAllocInformationGo] at hrun
    injection hrun with h
    exact h ▸ hle
  | cons fl rest ih =>
    intro info outer r hle hrun
    rw [Fuser.getAllocInformationGo] at hrun
    by_cases hca : info.alloc_pos = tv.computeAtPosition
    · rw [if_pos hca] at hrun
      injection hrun with h
      exact h ▸ hle
    · rw [if_neg hca] at hrun
      have hlt : info.alloc_pos < tv.computeAtPosition := by omega
      cases hax : tv.axes.get? info.alloc_pos with
      | none => rw [hax] at hrun; exact absurd hrun (by simp)
      | some ax =>
        rw [hax] at hrun
        simp only at hrun
        by_cases hred : ax.isReduction
        · rw [if_pos hred] at hrun
          by_cases hterm : tv.isTerminatingOutput
          · rw [if_pos hterm] at hrun
            injection hrun with h
            exact h ▸ hle
          · rw [if_neg hterm] at hrun
            exact absurd hrun (by simp)
        · rw [if_neg hred] at hrun
          by_cases hunroll : fl.parallelType = Fuser.ParallelType.Unroll
          · rw [if_pos hunroll] at hrun
            injection hrun with h
            exact h ▸ hle
          · rw [if_neg hunroll] at hrun
            refine ih _ _ r ?_ hrun
            simp only
            repeat' split
            all_goals omega

/-- Claim C5: for every tensor and every enclosing loop nest, the allocation
position computed by getAllocInformation is at most the tensor's compute-at
position: the walk over the enclosing for-loops stops advancing the
allocation position as soon as it reaches the compute-at position. -/
theorem C5_alloc_pos_le_compute_at (caMap : Fuser.CaMapM) (tv : Fuser.TensorViewM)
    (id_map : List (Nat × Nat)) (use_id_map : Bool)
    (for_loops : List Fuser.ForLoopM) (info : Fuser.BasicAllocInfo)
    (hrun : Fuser.getAllocInformation caMap tv id_map use_id_map for_loops = some info) :
    info.alloc_pos ≤ tv.computeAtPosition :=
  getAllocInformationGo_le caMap tv id_map use_id_map for_loops
    ⟨none, none, 0⟩ false info (Nat.zero_le _) hrun

/-- Witness for C5: a tensor with compute-at position 1 under two serial
loops; the walk advances the allocation position to exactly 1 and stops, and
the claim theorem bounds it by the compute-at position. -/
theorem C5_alloc_pos_le_compute_at_witness :
    Fuser.getAllocInformation ⟨fun a b => a == b⟩
      ⟨1, [⟨0, false⟩, ⟨1, false⟩], Fuser.MemoryType.Local, false, none, true⟩
      [] false [⟨0, Fuser.ParallelType.Serial⟩, ⟨1, Fuser.ParallelType.Serial⟩] =
      some ⟨some ⟨0, Fuser.ParallelType.Serial⟩, some ⟨0, Fuser.ParallelType.Serial⟩, 1⟩ ∧
    (1 : Nat) ≤ 1 :=
  ⟨rfl,
    C5_alloc_pos_le_compute_at ⟨fun a b => a == b⟩
      ⟨1, [⟨0, false⟩, ⟨1, false⟩], Fuser.MemoryType.Local, false, none, true⟩
      [] false [⟨0, Fuser.ParallelType.Serial⟩, ⟨1, Fuser.ParallelType.Serial⟩]
      ⟨some ⟨0, Fuser.ParallelType.Serial⟩, some ⟨0, Fuser.ParallelType.Serial⟩, 1⟩ rfl⟩

/-- Helper: once the reference scan holds a result it never returns none. -/
theorem frGo_isSome_of_some (n : Nat) :
    ∀ (l : List Fuser.OutputTv) (idx : Nat) (p : Nat × Fuser.OutputTv) (m : Int),
      (Fuser.frGo n l idx (some p) m).isSome = true := by
  intro l
  induction l with
  | nil => intro idx p m; rfl
  | cons hd tl ih =>
    intro idx p m
    rw [Fuser.frGo]
    split
    · exact ih (idx + 1) (idx, hd) _
    · exact ih (idx + 1) p m

/-- Helper: the reference scan started fresh returns none exactly when no
output passes the candidate filter. -/
theorem frGo_none_iff (n : Nat) :
    ∀ (l : List Fuser.OutputTv) (idx : Nat),
      Fuser.frGo n l idx none (-1) = none ↔
        ∀ tv ∈ l, Fuser.passesFilter n tv = false := by
  intro l
  induction l with
  | nil => intro idx; simp [Fuser.frGo]
  | cons hd tl ih =>
    intro idx
    rw [Fuser.frGo]
    by_cases hp : Fuser.passesFilter n hd = true
    · rw [if_pos ⟨hp, by omega⟩]
      constructor
      · intro hnone
        have := frGo_isSome_of_some n tl (idx + 1) (idx, hd) (Fuser.nRootDims hd)
        rw [hnone] at this
        exact absurd this (by simp)
      · intro hall
        have := hall hd (List.mem_cons_self hd tl)
        rw [hp] at this
        exact absurd this (by simp)
    · rw [if_neg (fun hc => hp hc.1)]
      rw [ih (idx + 1)]
      constructor
      · intro hall tv hmem
        cases hmem with
        | head => simpa using hp
        | tail _ hm => exact hall tv hm
      · intro hall tv hmem
        exact hall tv (List.mem_cons_of_mem hd hmem)

/-- Helper: when the reference scan returns a result, the result either is the
incoming accumulator (and nothing in the remaining list beats the incoming
max), or it is the first element of the remaining list attaining the maximum
number of non-reduction dims among passing elements. -/
theorem frGo_some_spec (n : Nat) :
    ∀ (l : List Fuser.OutputTv) (idx : Nat) (res : Option (Nat × Fuser.OutputTv))
      (m : Int) (i : Nat) (tv : Fuser.OutputTv),
      Fuser.frGo n l idx res m = some (i, tv) →
      (res = some (i, tv) ∧
        ∀ k u, l.get? k = some u → Fuser.passesFilter n u = true →
          (Fuser.nRootDims u : Int) ≤ m) ∨
      (∃ k, l.get? k = some tv ∧ i = idx + k ∧ Fuser.passesFilter n tv = true ∧
        m < (Fuser.nRootDims tv : Int) ∧
        (∀ j u, j < k → l.get? j = some u → Fuser.passesFilter n u = true →
          Fuser.nRootDims u < Fuser.nRootDims tv) ∧
        (∀ j u, l.get? j = some u → Fuser.passesFilter n u = true →
          Fuser.nRootDims u ≤ Fuser.nRootDims tv)) := by
  intro l
  induction l with
  | nil =>
    intro idx res m i tv hrun
    left
    exact ⟨hrun, fun k u hk => by simp at hk⟩
  | cons hd tl ih =>
    intro idx res m i tv hrun
    rw [Fuser.frGo] at hrun
    by_cases hc : Fuser.passesFilter n hd = true ∧ m < (Fuser.nRootDims hd : Int)
    · rw [if_pos hc] at hrun
      rcases ih (idx + 1) (some (idx, hd)) (Fuser.nRootDims hd) i tv hrun with
        ⟨heq, hall⟩ | ⟨k, hget, hik, hpass, hm, hbef, hall⟩
      · injection heq with heq2
        injection heq2 with heqi heqtv
        subst heqi
        subst heqtv
        right
        refine ⟨0, rfl, by omega, hc.1, hc.2, fun j u hj => by omega, ?_⟩
        intro j u hget hp
        cases j with
        | zero =>
          injection hget with h
          subst h
          exact Nat.le_refl _
        | succ j2 =>
          have := hall j2 u (by simpa using hget) hp
          exact_mod_cast this
      · right
        refine ⟨k + 1, by simpa using hget, by omega, hpass, ?_, ?_, ?_⟩
        · have hmm : (Fuser.nRootDims hd : Int) < (Fuser.nRootDims tv : Int) := hm
          exact lt_trans hc.2 hmm
        · intro j u hj hget2 hp
          cases j with
          | zero =>
            injection hget2 with h
            subst h
            exact_mod_cast hm
          | succ j2 => exact hbef j2 u (by omega) (by simpa using hget2) hp
        · intro j u hget2 hp
          cases j with
          | zero =>
            injection hget2 with h
            subst h
            have h2 : (Fuser.nRootDims hd : Int) < (Fuser.nRootDims tv : Int) := hm
            omega
          | succ j2 => exact hall j2 u (by simpa using hget2) hp
    · rw [if_neg hc] at hrun
      rcases ih (idx + 1) res m i tv hrun with
        ⟨heq, hall⟩ | ⟨k, hget, hik, hpass, hm, hbef, hall⟩
      · left
        refine ⟨heq, ?_⟩
        intro j u hget2 hp
        cases j with
        | zero =>
          injection hget2 with h
          subst h
          have h1 : ¬ m < (Fuser.nRootDims hd : Int) := fun hlt => hc ⟨hp, hlt⟩
          omega
        | succ j2 => exact hall j2 u (by simpa using hget2) hp
      · right
        refine ⟨k + 1, by simpa using hget, by omega, hpass, hm, ?_, ?_⟩
        · intro j u hj hget2 hp
          cases j with
          | zero =>
            injection hget2 with h
            subst h
            have h1 : ¬ m < (Fuser.nRootDims hd : Int) := fun hlt => hc ⟨hp, hlt⟩
            have h2 : m < (Fuser.nRootDims tv : Int) := hm
            omega
          | succ j2 => exact hbef j2 u (by omega) (by simpa using hget2) hp
        · intro j u hget2 hp
          cases j with
          | zero =>
            injection hget2 with h
            subst h
            have h1 : ¬ m < (Fuser.nRootDims hd : Int) := fun hlt => hc ⟨hp, hlt⟩
            have h2 : m < (Fuser.nRootDims tv : Int) := hm
            omega
          | succ j2 => exact hall j2 u (by simpa using hget2) hp

/-- Claim C6: the reference tensor chosen by DomainMap::findReferenceTensorView
is the fusion output with the most non-reduction logical dims among the
candidate outputs (valid references that are not fusion inputs; the validity
analysis is outside the provided sources and kept abstract), and on ties the
output with the smallest index wins: every earlier candidate has strictly
fewer non-reduction dims.  No reference is found exactly when no output
passes the candidate filter. -/
theorem C6_find_reference_tensor (outputs : List Fuser.OutputTv) :
    (Fuser.findReferenceTensorView outputs 0 = none ↔
      ∀ tv ∈ outputs, Fuser.passesFilter 0 tv = false) ∧
    (∀ i tv, Fuser.findReferenceTensorView outputs 0 = some (i, tv) →
      outputs.get? i = some tv ∧ Fuser.passesFilter 0 tv = true ∧
      (∀ j u, outputs.get? j = some u → Fuser.passesFilter 0 u = true →
        Fuser.nRootDims u ≤ Fuser.nRootDims tv) ∧
      (∀ j u, j < i → outputs.get? j = some u → Fuser.passesFilter 0 u = true →
        Fuser.nRootDims u < Fuser.nRootDims tv)) := by
  constructor
  · exact frGo_none_iff 0 outputs 0
  · intro i tv hrun
    rcases frGo_some_spec 0 outputs 0 none (-1) i tv hrun with
      ⟨heq, _⟩ | ⟨k, hget, hik, hpass, _, hbef, hall⟩
    · exact absurd heq (by simp)
    · have hk : i = k := by omega
      subst hk
      exact ⟨hget, hpass, fun j u h1 h2 => hall j u h1 h2,
        fun j u hj h1 h2 => hbef j u (by omega) h1 h2⟩

/-- Witness for C6: two valid two-dimensional outputs tie on non-reduction
dims; the scan returns the first, and the claim theorem certifies that the
second does not exceed it. -/
theorem C6_find_reference_tensor_witness :
    Fuser.findReferenceTensorView
      [⟨true, false, [false, false]⟩, ⟨true, false, [false, false]⟩] 0 =
      some (0, ⟨true, false, [false, false]⟩) ∧
    Fuser.nRootDims ⟨true, false, [false, false]⟩ ≤
      Fuser.nRootDims ⟨true, false, [false, false]⟩ :=
  ⟨rfl,
    ((C6_find_reference_tensor
        [⟨true, false, [false, false]⟩, ⟨true, false, [false, false]⟩]).2 0
      ⟨true, false, [false, false]⟩ rfl).2.2.1 1 ⟨true, false, [false, false]⟩ rfl rfl⟩

/-- Claim C7 (counterexample): the claim states that split_grid_y_dim is set
whenever either grid axis exceeds 65535 blocks.  On the concrete input
pwExampleInput the adopted break point yields gdim_right = 131072 > 65535 with
the unflipped binding, yet split_grid_y_dim remains false: the code only
checks the axis bound to BIDy (gdim_left here, which is 100). -/
theorem C7_split_grid_y_counterexample :
    Fuser.getPointwiseHeuristics Fuser.pwExampleInput =
      some ⟨1, false, false, false, 100, 131072⟩ ∧
    65535 < 131072 := by
  constructor
  · rfl
  · decide

/-- Claim C7 (amended): split_grid_y_dim is set if and only if the grid axis
that the schedule binds to BIDy — gdim_right when flip_grid_binding is set,
gdim_left otherwise — exceeds 65535 blocks. -/
theorem C7_split_grid_y_dim (inp : Fuser.PwInputs) (params : Fuser.PointwiseParamsM)
    (h : Fuser.getPointwiseHeuristics inp = some params) :
    params.split_grid_y_dim = true ↔
      65535 < (if params.flip_grid_binding then params.gdim_right else params.gdim_left) := by
  unfold Fuser.getPointwiseHeuristics Fuser.finalizePointwiseParams at h
  split_ifs at h <;>
    first
      | exact Option.noConfusion h
      | (injection h with h2
         subst h2
         cases hflip : (Fuser.breakPointLoop inp).flip_grid_binding <;>
           simp [hflip])

/-- Witness for C7 (amended): the claim theorem applied to the concrete
adopted schedule of pwExampleInput, whose BIDy axis is gdim_left = 100. -/
theorem C7_split_grid_y_dim_witness :
    (Fuser.PointwiseParamsM.mk 1 false false false 100 131072).split_grid_y_dim = true ↔
      65535 < (if (Fuser.PointwiseParamsM.mk 1 false false false 100 131072).flip_grid_binding
        then (Fuser.PointwiseParamsM.mk 1 false false false 100 131072).gdim_right
        else (Fuser.PointwiseParamsM.mk 1 false false false 100 131072).gdim_left) :=
  C7_split_grid_y_dim Fuser.pwExampleInput
    (Fuser.PointwiseParamsM.mk 1 false false false 100 131072) rfl

/-- Claim C8: for every candidate break point that is adopted (all continue
guards fail), the BIDx/BIDy grid binding is flipped if and only if the left
side of the break point is an outer (or balanced) broadcast — its byte
multiple does not exceed the right one, per the source comment grouping the
outer-broadcast and balanced-broadcast cases — and the right-side transfer
size exceeds half the L2 cache size (right_transfer_size * 2 exceeds
l2CacheSize). -/
theorem C8_flip_grid_binding (inp : Fuser.PwInputs) (n_elems transfer_size_1d : Nat)
    (st : Fuser.BreakState) (bpi : Nat)
    (h : Fuser.breakPointAdopted inp n_elems transfer_size_1d st bpi) :
    (Fuser.processBreakPoint inp n_elems transfer_size_1d st bpi).flip_grid_binding = true ↔
      (Fuser.lhsMultiple inp bpi ≤ Fuser.rhsMultiple inp bpi ∧
        inp.l2CacheSize < Fuser.rightTransferSize inp bpi * 2) := by
  obtain ⟨h1, h2, h3, h4, h5⟩ := h
  rw [Fuser.processBreakPoint]
  rw [h1]
  simp only [Bool.not_true, Bool.false_eq_true, if_false]
  rw [if_neg (by omega)]
  rw [if_neg (by omega)]
  rw [if_neg (by omega)]
  simp

/-- Witness for C8: the adopted break point 1 of pwExampleInput does not flip
the binding, because its right transfer size (134217728 bytes) does not exceed
half of the 2^62-byte L2. -/
theorem C8_flip_grid_binding_witness :
    (Fuser.processBreakPoint Fuser.pwExampleInput 1677721600 107374182400
        Fuser.initBreakState 1).flip_grid_binding = true ↔
      (Fuser.lhsMultiple Fuser.pwExampleInput 1 ≤ Fuser.rhsMultiple Fuser.pwExampleInput 1 ∧
        Fuser.pwExampleInput.l2CacheSize <
          Fuser.rightTransferSize Fuser.pwExampleInput 1 * 2) :=
  C8_flip_grid_binding Fuser.pwExampleInput 1677721600 107374182400
    Fuser.initBreakState 1 (by refine ⟨rfl, ?_, ?_, ?_, ?_⟩ <;> decide)

/-- Claim C2: in the modelled non-divisible split analysis, each recorded
non-divisible split whose outputs feed a Vectorize-parallelized axis is
registered to validate at run time with no per-iteration predicate, every
other recorded non-divisible split is registered to predicate, and no split
receives both treatments.  Moreover, on the two schedules named by the claim:
a 1-D domain scheduled split(0,5); split(1,3) records exactly one split to
predicate and none to validate (matching test FusionNonDivisibleSplit1), and
a 1-D domain scheduled split(0,8,outer); split(1,4) with Vectorize on the
inner axis records exactly one split to validate and none to predicate
(matching test FusionNonDivisibleSplitVectorize1). -/
theorem C2_non_divisible_split_treatment :
    (∀ (root : List Fuser.ExtentE) (ops : List Fuser.SchedOp) (id : Nat),
      id ∈ (Fuser.runSched root ops).nonDivisibleSplits →
      ((id ∈ Fuser.splitsToValidate (Fuser.runSched root ops) ↔
          Fuser.feedsVectorize (Fuser.runSched root ops) id = true) ∧
       (id ∈ Fuser.splitsToPredicate (Fuser.runSched root ops) ↔
          Fuser.feedsVectorize (Fuser.runSched root ops) id = false) ∧
       ¬(id ∈ Fuser.splitsToValidate (Fuser.runSched root ops) ∧
          id ∈ Fuser.splitsToPredicate (Fuser.runSched root ops)))) ∧
    ((Fuser.splitsToPredicate (Fuser.runSched [Fuser.ExtentE.sym 0]
        [Fuser.SchedOp.splitOp 0 5 true, Fuser.SchedOp.splitOp 1 3 true])).length = 1 ∧
      Fuser.splitsToValidate (Fuser.runSched [Fuser.ExtentE.sym 0]
        [Fuser.SchedOp.splitOp 0 5 true, Fuser.SchedOp.splitOp 1 3 true]) = []) ∧
    ((Fuser.splitsToValidate (Fuser.runSched [Fuser.ExtentE.sym 0]
        [Fuser.SchedOp.splitOp 0 8 false, Fuser.SchedOp.splitOp 1 4 true,
         Fuser.SchedOp.vectorizeOp 2])).length = 1 ∧
      Fuser.splitsToPredicate (Fuser.runSched [Fuser.ExtentE.sym 0]
        [Fuser.SchedOp.splitOp 0 8 false, Fuser.SchedOp.splitOp 1 4 true,
         Fuser.SchedOp.vectorizeOp 2]) = []) := by
  refine ⟨?_, ⟨by decide, by decide⟩, ⟨by decide, by decide⟩⟩
  intro root ops id hmem
  refine ⟨?_, ?_, ?_⟩
  · constructor
    · intro hv
      exact (List.mem_filter.mp hv).2
    · intro hf
      exact List.mem_filter.mpr ⟨hmem, hf⟩
  · constructor
    · intro hp
      have := (List.mem_filter.mp hp).2
      simpa using this
    · intro hf
      exact List.mem_filter.mpr ⟨hmem, by simpa using hf⟩
  · rintro ⟨hv, hp⟩
    have h1 := (List.mem_filter.mp hv).2
    have h2 := (List.mem_filter.mp hp).2
    rw [h1] at h2
    exact absurd h2 (by decide)

/-- Witness for C2: in the second example schedule the recorded split (id 1)
feeds the vectorized axis, so it is registered to validate and not to
predicate, through the claim theorem. -/
theorem C2_non_divisible_split_treatment_witness :
    1 ∈ Fuser.splitsToValidate (Fuser.runSched [Fuser.ExtentE.sym 0]
      [Fuser.SchedOp.splitOp 0 8 false, Fuser.SchedOp.splitOp 1 4 true,
       Fuser.SchedOp.vectorizeOp 2]) :=
  ((C2_non_divisible_split_treatment.1 [Fuser.ExtentE.sym 0]
      [Fuser.SchedOp.splitOp 0 8 false, Fuser.SchedOp.splitOp 1 4 true,
       Fuser.SchedOp.vectorizeOp 2] 1 (by decide)).1).mpr (by decide)

/-- Claim C1 (counterexample): the claim states that getType returns Int32
exactly when the accumulated most-positive index is at most 2^31 - 1.  The
code's threshold is (2^31 - 1) / 2 = 1073741823: starting from a fresh
KernelIndexTypeCompute, addDim with size 2 and stride 2^30 accumulates the
index 2^30 = 1073741824, which is at most 2^31 - 1, yet getType returns the
64-bit type Int, not Int32. -/
theorem C1_threshold_counterexample :
    Fuser.KernelIndexTypeCompute.addDim ⟨0⟩ 2 1073741824 =
      some (⟨1073741824⟩, Fuser.PrimDataType.Int) ∧
    (1073741824 : Int) ≤ 2 ^ 31 - 1 ∧
    Fuser.PrimDataType.Int ≠ Fuser.PrimDataType.Int32 := by
  refine ⟨?_, by decide, by decide⟩
  decide

/-- Claim C1 (amended): KernelIndexTypeCompute::getType returns Int32 exactly
when the accumulated most-positive index is at most
(2^31 - 1) / 2 = 1073741823 (the source reserves one extra bit besides the
sign bit); otherwise the 64-bit type is selected. -/
theorem C1_index_type_threshold (c : Fuser.KernelIndexTypeCompute) :
    c.getType = Fuser.PrimDataType.Int32 ↔
      c.tensor_most_positive_index ≤ 1073741823 := by
  have hth : Fuser.most_positive_int32_index = 1073741823 := by decide
  unfold Fuser.KernelIndexTypeCompute.getType
  rw [hth]
  split
  · rename_i h
    constructor
    · intro hc
      exact absurd hc (by decide)
    · intro hle
      exact absurd hle (by omega)
  · rename_i h
    constructor
    · intro _
      omega
    · intro _
      rfl
